import Mathlib

/-!
Shallow embedding of the Juju charm library (src/lib.rs) and proofs about
its spec.  Decoded Rust strings are modelled as `List Char`; raw byte
buffers as `List Nat` (each entry < 256).  Fallible Rust code returns
`Except`; a Rust panic (out-of-bounds index, `unwrap` on `Err`) is a
distinguished error branch of a total function.
-/

/-- Rust `str::split(delim)` at character granularity: the list of
segments between occurrences of `delim`.  Splitting the empty string
yields one empty segment, as in Rust. -/
def splitOnChar (delim : Char) : List Char → List (List Char)
  | [] => [[]]
  | c :: rest =>
    if c = delim then [] :: splitOnChar delim rest
    else
      match splitOnChar delim rest with
      | s :: ss => (c :: s) :: ss
      | [] => [[c]]

/-- Boolean list-prefix test (helper for substring containment). -/
def isPrefixOfB : List Char → List Char → Bool
  | [], _ => true
  | _ :: _, [] => false
  | a :: xs, b :: ys => if a = b then isPrefixOfB xs ys else false

/-- Rust `str::contains`: `needle` occurs as a contiguous substring of
`hay`.  Used by `process_hooks` as `hook_name.contains(&hook.name)`. -/
def containsSub (hay needle : List Char) : Bool :=
  if isPrefixOfB needle hay then true
  else
    match hay with
    | [] => false
    | _ :: t => containsSub t needle

/-- Drop one trailing carriage return (Rust `lines` strips a `\r` that
immediately precedes a consumed `\n`). -/
def stripTrailingCR (l : List Char) : List Char :=
  match l.getLast? with
  | some c => if c = '\r' then l.dropLast else l
  | none => l

/-- Rust `str::lines()`: split on `'\n'`; every piece that was followed by
a newline loses one trailing `'\r'`; a final empty piece (text ending in
`'\n'`, or empty text) is not yielded. -/
def rustLines (s : List Char) : List (List Char) :=
  (splitOnChar '\n' s).dropLast.map stripTrailingCR ++
    (match (splitOnChar '\n' s).getLast? with
     | some l => if l = [] then [] else [l]
     | none => [])

/-- Rust `str::trim` (ASCII whitespace; the texts this library handles are
ASCII, so the Unicode white-space classes beyond these never arise). -/
def trimChars (l : List Char) : List Char :=
  ((l.dropWhile Char.isWhitespace).reverse.dropWhile Char.isWhitespace).reverse

/-- Rust `str::parse::<usize>` on a 64-bit target: optional leading `'+'`,
then one or more ASCII decimal digits; rejects the empty string, any other
character (including `'-'` for this unsigned type), and values ≥ 2^64.
The error payload is the `ParseIntError` description text. -/
def parseUsize (s : List Char) : Except (List Char) Nat :=
  match s with
  | [] => .error "cannot parse integer from empty string".data
  | _ =>
    match (match s with
           | '+' :: t => t
           | _ => s) with
    | [] => .error "invalid digit found in string".data
    | digits =>
      if digits.all (fun c => c.isDigit) then
        if digits.foldl (fun acc c => acc * 10 + (c.toNat - 48)) 0 < 2 ^ 64 then
          .ok (digits.foldl (fun acc c => acc * 10 + (c.toNat - 48)) 0)
        else .error "number too large to fit in target type".data
      else .error "invalid digit found in string".data

/-- UTF-8 decoding with fuel (fuel ≥ number of bytes suffices; each step
consumes at least one byte).  Implements the exact validity rules of
Rust's `String::from_utf8`: rejects continuation-byte errors, overlong
encodings, surrogates and code points above 0x10FFFF. -/
def utf8DecodeGo : Nat → List Nat → Option (List Char)
  | _, [] => some []
  | 0, _ :: _ => none
  | fuel + 1, b :: rest =>
    if b ≤ 0x7F then
      (utf8DecodeGo fuel rest).map (fun cs => Char.ofNat b :: cs)
    else if b < 0xC2 then none
    else if b ≤ 0xDF then
      match rest with
      | b1 :: rest2 =>
        if 0x80 ≤ b1 ∧ b1 ≤ 0xBF then
          (utf8DecodeGo fuel rest2).map
            (fun cs => Char.ofNat ((b - 0xC0) * 0x40 + (b1 - 0x80)) :: cs)
        else none
      | [] => none
    else if b ≤ 0xEF then
      match rest with
      | b1 :: b2 :: rest3 =>
        if ((if b = 0xE0 then 0xA0 else 0x80) ≤ b1 ∧
              b1 ≤ (if b = 0xED then 0x9F else 0xBF)) ∧
            (0x80 ≤ b2 ∧ b2 ≤ 0xBF) then
          (utf8DecodeGo fuel rest3).map
            (fun cs =>
              Char.ofNat ((b - 0xE0) * 0x1000 + (b1 - 0x80) * 0x40 +
                (b2 - 0x80)) :: cs)
        else none
      | _ => none
    else if b ≤ 0xF4 then
      match rest with
      | b1 :: b2 :: b3 :: rest4 =>
        if ((if b = 0xF0 then 0x90 else 0x80) ≤ b1 ∧
              b1 ≤ (if b = 0xF4 then 0x8F else 0xBF)) ∧
            (0x80 ≤ b2 ∧ b2 ≤ 0xBF) ∧ (0x80 ≤ b3 ∧ b3 ≤ 0xBF) then
          (utf8DecodeGo fuel rest4).map
            (fun cs =>
              Char.ofNat ((b - 0xF0) * 0x40000 + (b1 - 0x80) * 0x1000 +
                (b2 - 0x80) * 0x40 + (b3 - 0x80)) :: cs)
        else none
      | _ => none
    else none

/-- UTF-8 decoding of a byte buffer (see `utf8DecodeGo`). -/
def utf8Decode (bytes : List Nat) : Option (List Char) :=
  utf8DecodeGo bytes.length bytes

/-- The library's error type (src/lib.rs 57-62).  `IoError` is the
"process failure" tag — `JujuError::new(msg)` wraps a message in an
`io::Error`; `FromUtf8Error` is the decode-failure tag;
`ParseIntError` the numeric-parse-failure tag.  Each carries the text
its `description()` / stored message exposes. -/
inductive JujuError where
  | IoError (msg : List Char)
  | FromUtf8Error (msg : List Char)
  | ParseIntError (msg : List Char)
deriving DecidableEq

/-- Rust `String::from_utf8` with the `From<FromUtf8Error> for JujuError`
conversion `try!` applies at every call site: a valid buffer decodes,
an invalid one yields the `FromUtf8Error` tag (description
"invalid utf-8"). -/
def from_utf8 (bytes : List Nat) : Except JujuError (List Char) :=
  match utf8Decode bytes with
  | some cs => .ok cs
  | none => .error (JujuError.FromUtf8Error "invalid utf-8".data)

/-- The `std::process::Output`: `success` is `output.status.success()`
(exit code zero); stdout/stderr are raw byte buffers. -/
structure Output where
  success : Bool
  stdout : List Nat
  stderr : List Nat

/-- The `process_output` (src/lib.rs 206-216): `Ok(0)` when the status is
success; otherwise `JujuError::new(decoded stderr)`, where a stderr
buffer that fails to decode makes `try!` return the decode failure
instead. -/
def process_output (output : Output) : Except JujuError Int :=
  if output.success then .ok 0
  else
    match from_utf8 output.stderr with
    | .ok s => .error (JujuError.IoError s)
    | .error e => .error e

/-- The program and argument list a `std::process::Command` is built
with — the observable of the two `run_command*` constructors. -/
structure Cmd where
  program : String
  args : List String
deriving DecidableEq

/-- Command construction of `run_command_no_args` (src/lib.rs 554-564):
with `as_root` the code builds `Command::new("sudo")` and never passes
`command` to it — the target executable is dropped in that branch. -/
def run_command_no_args_cmd (command : String) (as_root : Bool) : Cmd :=
  if as_root then ⟨"sudo", []⟩ else ⟨command, []⟩

/-- Command construction of `run_command` (src/lib.rs 566-583): with
`as_root` the code builds `Command::new("sudo")`, adds `command` as the
first argument, then the argument list. -/
def run_command_cmd (command : String) (arg_list : List String)
    (as_root : Bool) : Cmd :=
  if as_root then ⟨"sudo", command :: arg_list⟩ else ⟨command, arg_list⟩

/-- Bitwise NOT on a 64-bit `usize`.  The Rust guard
`if ! parts.len() == 2` parses as `(!parts.len()) == 2`; unary `!` on an
unsigned integer is bitwise complement. -/
def rustNotUsize (n : Nat) : Nat := 2 ^ 64 - 1 - n

/-- One character of Rust's `Debug` string escaping (the characters that
occur in this library's texts; other control characters never arise
here). -/
def rustDebugEscapeChar (c : Char) : List Char :=
  if c = '"' then ['\\', '"']
  else if c = '\\' then ['\\', '\\']
  else if c = '\n' then ['\\', 'n']
  else if c = '\r' then ['\\', 'r']
  else if c = '\t' then ['\\', 't']
  else [c]

/-- Rust `{:?}` of a `&str`: quoted, escaped. -/
def rustDebugStr (s : List Char) : List Char :=
  '"' :: (s.map rustDebugEscapeChar).flatten ++ ['"']

/-- Rust `{:?}` of a `Vec<&str>`: bracketed, comma-separated. -/
def rustDebugVec (parts : List (List Char)) : List Char :=
  '[' :: List.intercalate ", ".data (parts.map rustDebugStr) ++ [']']

/-- The `HashMap<String,String>` modelled as an association list whose
`insert` overwrites on key collision (entry count = list length; the
spec declares iteration order irrelevant). -/
abbrev ConfigMap := List (List Char × List Char)

/-- The `HashMap::insert`: overwrite the value when the key is present,
append a fresh entry otherwise. -/
def mapInsert (m : ConfigMap) (k v : List Char) : ConfigMap :=
  if m.any (fun p => p.1 == k) then
    m.map (fun p => if p.1 == k then (k, v) else p)
  else m ++ [(k, v)]

/-- The split of one config line:
`line.split(":").filter(|s| !s.is_empty()).collect()`
(src/lib.rs 328). -/
def configSplitLine (line : List Char) : List (List Char) :=
  (splitOnChar ':' line).filter (fun s => !s.isEmpty)

/-- The line loop of `config_get_all` (src/lib.rs 327-348).  Note the
guard is a faithful rendering of `if ! parts.len() == 2`, i.e.
`rustNotUsize parts.length == 2`, which no realistic length satisfies —
the `continue` meant to skip bogus lines is dead, and the
`parts.get(0)` / `parts.get(1)` `None` arms return errors carrying the
`{:?}`-formatted parts. -/
def config_parse_go : List (List Char) → ConfigMap → Except JujuError ConfigMap
  | [], values => .ok values
  | line :: rest, values =>
    if rustNotUsize (configSplitLine line).length == 2 then
      config_parse_go rest values
    else
      match (configSplitLine line).get? 0 with
      | none =>
        .error (JujuError.IoError
          ("Unable to get key from config-get from parts: ".data ++
            rustDebugVec (configSplitLine line)))
      | some key =>
        match (configSplitLine line).get? 1 with
        | none =>
          .error (JujuError.IoError
            ("Unable to get value from config-get from parts: ".data ++
              rustDebugVec (configSplitLine line)))
        | some value => config_parse_go rest (mapInsert values key value)

/-- The `config_get_all`'s parse of the decoded `config-get --all` stdout. -/
def config_parse (s : List Char) : Except JujuError ConfigMap :=
  config_parse_go (rustLines s) []

/-- The `Relation` (src/lib.rs 185-191). -/
structure Relation where
  name : List Char
  id : Nat
deriving DecidableEq

/-- Outcome channel for operations that can also abort: `err` carries one
of the three typed library errors, `panic` a Rust panic (out-of-bounds
index or `unwrap` on `Err`), which is not a `JujuError` value. -/
inductive RunError where
  | err (e : JujuError)
  | panic (msg : List Char)
deriving DecidableEq

/-- The message of Rust's slice index-out-of-bounds panic. -/
def oobMsg (len idx : Nat) : List Char :=
  "index out of bounds: the len is ".data ++ (Nat.repr len).data ++
    " but the index is ".data ++ (Nat.repr idx).data

/-- The shared line loop of `relation_list` (delimiter `'/'`,
src/lib.rs 414-422) and `relation_ids` (delimiter `':'`,
src/lib.rs 432-440): split each line, index `v[1]` unconditionally
(out of bounds when absent), `try!` the `usize` parse of it, and push
`Relation { name: v[0], id }` in input order. -/
def parse_relation_lines (delim : Char) :
    List (List Char) → List Relation → Except RunError (List Relation)
  | [], related_units => .ok related_units
  | line :: rest, related_units =>
    match (splitOnChar delim line).get? 1 with
    | none => .error (RunError.panic (oobMsg (splitOnChar delim line).length 1))
    | some seg =>
      match parseUsize seg with
      | .error e => .error (RunError.err (JujuError.ParseIntError e))
      | .ok id =>
        parse_relation_lines delim rest
          (related_units ++ [⟨(splitOnChar delim line).headD [], id⟩])

/-- The `relation_list`'s parse of the decoded `relation-list` stdout. -/
def relation_list_parse (s : List Char) : Except RunError (List Relation) :=
  parse_relation_lines '/' (rustLines s) []

/-- The `relation_ids`'s parse of the decoded `relation-ids` stdout. -/
def relation_ids_parse (s : List Char) : Except RunError (List Relation) :=
  parse_relation_lines ':' (rustLines s) []

/-- Boolean `Result::is_ok()`. -/
def exceptIsOkB {ε α : Type} : Except ε α → Bool
  | .ok _ => true
  | .error _ => false

/-- The `log` (src/lib.rs 228-235), parametrised by the outcome of its
underlying `run_command("juju-log", [msg], false)` call: the Rust calls
`.is_ok();` on that result and returns unit — any error is dropped. -/
def log_run (res : Except JujuError Output) : Unit :=
  let _ok := exceptIsOkB res
  ()

/-- The `action_get` (src/lib.rs 250-257), parametrised by the outcome of its
underlying `run_command` call: `try!` the call, `try!` the stdout decode,
trim, return. -/
def action_get_run (res : Except JujuError Output) :
    Except JujuError (List Char) :=
  match res with
  | .error e => .error e
  | .ok output =>
    match from_utf8 output.stdout with
    | .error e => .error e
    | .ok value => .ok (trimChars value)

/-- The `reboot` (src/lib.rs 241-244), parametrised by the outcome of
`run_command_no_args("juju-reboot", true)`. -/
def reboot_run (res : Except JujuError Output) : Except JujuError Int :=
  match res with
  | .error e => .error e
  | .ok output => process_output output

/-- The `config_get_all` (src/lib.rs 317-351), parametrised by the outcome of
`run_command("config-get", ["--all"], false)`. -/
def config_get_all_run (res : Except JujuError Output) :
    Except JujuError ConfigMap :=
  match res with
  | .error e => .error e
  | .ok output =>
    match from_utf8 output.stdout with
    | .error e => .error e
    | .ok output_str => config_parse output_str

/-- The `relation_list` (src/lib.rs 406-424), parametrised by the outcome of
`run_command_no_args("relation-list", false)`.  (The interleaved `log`
call drops its own result and does not affect the returned value.) -/
def relation_list_run (res : Except JujuError Output) :
    Except RunError (List Relation) :=
  match res with
  | .error e => .error (RunError.err e)
  | .ok output =>
    match from_utf8 output.stdout with
    | .error e => .error (RunError.err e)
    | .ok output_str => relation_list_parse output_str

/-- The `relation_ids` (src/lib.rs 426-442), parametrised likewise. -/
def relation_ids_run (res : Except JujuError Output) :
    Except RunError (List Relation) :=
  match res with
  | .error e => .error (RunError.err e)
  | .ok output =>
    match from_utf8 output.stdout with
    | .error e => .error (RunError.err e)
    | .ok output_str => relation_ids_parse output_str

/-- The `is_leader` (src/lib.rs 544-552), parametrised by the outcome of
`run_command_no_args("is-leader", false)`. -/
def is_leader_run (res : Except JujuError Output) : Except JujuError Bool :=
  match res with
  | .error e => .error e
  | .ok output =>
    match from_utf8 output.stdout with
    | .error e => .error e
    | .ok output_str =>
      if trimChars output_str = "True".data then .ok true
      else if trimChars output_str = "False".data then .ok false
      else .ok false

/-- The `Hook` (src/lib.rs 193-201): a registered name and a callback
`fn() -> Result<(), String>`. -/
structure Hook where
  name : List Char
  callback : Unit → Except (List Char) Unit

/-- The `process_hooks` (src/lib.rs 509-521), parametrised by the invocation
name (the Rust reads it via the external `charmhelpers` crate's
`hook_name()`, defaulting to the empty string; the dispatch loop itself
is fully in src/lib.rs): scan the registry in order; the first entry
whose `name` is contained in the invocation name has its callback run
and that result returned; with no match, fail with the
"Warning: Unknown callback for hook" message. -/
def process_hooks (hook_name : List Char) :
    List Hook → Except (List Char) Unit
  | [] => .error ("Warning: Unknown callback for hook ".data ++ hook_name)
  | hook :: rest =>
    if containsSub hook_name hook.name then hook.callback ()
    else process_hooks hook_name rest

/-- Invocation trace of the same loop as `process_hooks`: the names of
the callbacks the dispatch invokes, in order (instrumentation used to
state "exactly once" / "none at all"). -/
def process_hooks_invoked (hook_name : List Char) :
    List Hook → List (List Char)
  | [] => []
  | hook :: rest =>
    if containsSub hook_name hook.name then [hook.name]
    else process_hooks_invoked hook_name rest

/-- The `Context` (src/lib.rs 145-155). -/
structure Context where
  relation_type : List Char
  relation_id : Nat
  unit : List Char
  relations : ConfigMap

/-- The `Context::new_from_env` (src/lib.rs 166-183), parametrised by the
process environment.  The Rust function returns a bare `Context`; the
`.error` branch here models the two reachable panics — the unconditional
`parts[1]` index (out of bounds when the split has one segment) and the
`.unwrap()` on the `usize` parse — there is no fallible interface. -/
def new_from_env (env : String → Option (List Char)) :
    Except (List Char) Context :=
  match (splitOnChar ':' ((env "JUJU_RELATION_ID").getD [])).get? 1 with
  | none =>
    .error (oobMsg (splitOnChar ':' ((env "JUJU_RELATION_ID").getD [])).length 1)
  | some part1 =>
    match parseUsize part1 with
    | .error e => .error ("called Result::unwrap() on an Err value: ".data ++ e)
    | .ok relation_id =>
      .ok ⟨(env "JUJU_RELATION").getD [], relation_id,
        (env "JUJU_UNIT_NAME").getD [], []⟩

/-- Claim C1: the config-dump line loop is claimed to silently drop every
line that does not split into exactly two non-empty colon-delimited
segments.  The code instead errors: its guard `if ! parts.len() == 2`
is a bitwise NOT and never fires, so a one-segment line such as `"abc"`
reaches `parts.get(1)`, whose `None` arm returns an error — contradicting
the adjacent comment "Skipping this possibly bogus value".  This theorem
evaluates the embedded parser at that failing input. -/
theorem claim_C1_malformed_line_errors :
    config_parse "abc".data =
      .error (JujuError.IoError
        ("Unable to get value from config-get from parts: [\"abc\"]".data)) := rfl

/-- Claim C2: with elevate=true both bridge entry points are claimed to
run the wrapper with the target executable as its first argument.  The
no-arguments entry point instead builds `Command::new("sudo")` and never
passes the target: for `reboot`'s call `run_command_no_args("juju-reboot",
true)` the spawned command is bare `sudo`, while the with-arguments entry
point does prefix the target — the two disagree. -/
theorem claim_C2_no_args_drops_target :
    run_command_no_args_cmd "juju-reboot" true = ⟨"sudo", []⟩ ∧
      run_command_cmd "juju-reboot" [] true = ⟨"sudo", ["juju-reboot"]⟩ ∧
      (⟨"sudo", []⟩ : Cmd) ≠ ⟨"sudo", ["juju-reboot"]⟩ :=
  ⟨rfl, rfl, by decide⟩

/-- Claim C3: dispatch scans the registry in registration order and the
first entry whose registered name is contained in the invocation name is
invoked — exactly once (the invocation trace is exactly that entry's
name) — and its result, success or failure, is returned unchanged;
entries after it are never consulted. -/
theorem claim_C3_first_containment_match :
    ∀ (hook_name : List Char) (pre : List Hook) (hook : Hook)
      (post : List Hook),
      (∀ h ∈ pre, containsSub hook_name h.name = false) →
      containsSub hook_name hook.name = true →
      process_hooks hook_name (pre ++ hook :: post) = hook.callback () ∧
        process_hooks_invoked hook_name (pre ++ hook :: post) = [hook.name] := by
  intro hook_name pre hook post hpre hmatch
  induction pre with
  | nil =>
    constructor
    · simp [process_hooks, hmatch]
    · simp [process_hooks_invoked, hmatch]
  | cons h t ih =>
    have hh : containsSub hook_name h.name = false :=
      hpre h (List.mem_cons_self h t)
    have ht : ∀ h' ∈ t, containsSub hook_name h'.name = false :=
      fun h' hm => hpre h' (List.mem_cons_of_mem h hm)
    have := ih ht
    constructor
    · simpa [process_hooks, hh] using this.1
    · simpa [process_hooks_invoked, hh] using this.2

/-- Witness for C3 at the spec's own example: registry `[("foo", cb)]`
and invocation name `"foo-relation-changed"` — containment, not
equality — runs `cb` and returns its `Ok(())` unchanged; the invocation
trace is exactly `["foo"]`. -/
theorem claim_C3_witness :
    process_hooks "foo-relation-changed".data
        [⟨"foo".data, fun _ => Except.ok ()⟩] = Except.ok () ∧
      process_hooks_invoked "foo-relation-changed".data
        [⟨"foo".data, fun _ => Except.ok ()⟩] = ["foo".data] :=
  claim_C3_first_containment_match "foo-relation-changed".data []
    ⟨"foo".data, fun _ => Except.ok ()⟩ []
    (fun h hm => absurd hm (List.not_mem_nil h)) (by decide)

/-- Claim C4: when no registered name is contained in the invocation
name, dispatch invokes nothing (empty invocation trace) and fails with
the "Unknown callback for hook" message.  The failure lives in the
dispatcher's plain-string error channel (`Except (List Char) Unit` here,
`Result<(), String>` in the Rust) — the `JujuError` type with its three
variants does not occur in this result at all. -/
theorem claim_C4_no_match_fails :
    ∀ (hook_name : List Char) (registry : List Hook),
      (∀ h ∈ registry, containsSub hook_name h.name = false) →
      process_hooks hook_name registry =
          .error ("Warning: Unknown callback for hook ".data ++ hook_name) ∧
        process_hooks_invoked hook_name registry = [] := by
  intro hook_name registry h
  induction registry with
  | nil => exact ⟨rfl, rfl⟩
  | cons hd tl ih =>
    have hh : containsSub hook_name hd.name = false :=
      h hd (List.mem_cons_self hd tl)
    have ht : ∀ h' ∈ tl, containsSub hook_name h'.name = false :=
      fun h' hm => h h' (List.mem_cons_of_mem hd hm)
    have := ih ht
    constructor
    · simpa [process_hooks, hh] using this.1
    · simpa [process_hooks_invoked, hh] using this.2

/-- Witness for C4 at the spec's example: registry
`[("config-changed", cb1), ("start", cb2)]`, invocation name
`"unknown-event"` — dispatch fails with the unknown-callback message and
the invocation trace is empty. -/
theorem claim_C4_witness :
    process_hooks "unknown-event".data
        [⟨"config-changed".data, fun _ => Except.ok ()⟩,
         ⟨"start".data, fun _ => Except.ok ()⟩] =
        Except.error ("Warning: Unknown callback for hook unknown-event".data) ∧
      process_hooks_invoked "unknown-event".data
        [⟨"config-changed".data, fun _ => Except.ok ()⟩,
         ⟨"start".data, fun _ => Except.ok ()⟩] = [] :=
  claim_C4_no_match_fails "unknown-event".data
    [⟨"config-changed".data, fun _ => Except.ok ()⟩,
     ⟨"start".data, fun _ => Except.ok ()⟩]
    (by
      intro hk hm
      rcases List.mem_cons.mp hm with rfl | hm2
      · decide
      rcases List.mem_cons.mp hm2 with rfl | hm3
      · decide
      exact absurd hm3 (List.not_mem_nil hk))

/-- Counterexample to claim C8: `log` is a wrapper operation of this
core (the claim's own cited lines), yet it does not propagate a bridge
error — its Rust body ends in `.is_ok();` and returns unit, so a
`ProcessFailure` from the underlying `juju-log` call is discarded: the
caller receives the very same `()` it would receive on success. -/
theorem claim_C8_counterexample :
    log_run (.error (JujuError.IoError "boom".data)) = () ∧
      log_run (.error (JujuError.IoError "boom".data)) =
        log_run (.ok ⟨true, [], []⟩) :=
  ⟨rfl, rfl⟩

/-- Claim C8 as amended: every embedded wrapper operation other than
`log` propagates a `JujuError` from its underlying command invocation
unchanged to its caller (`relation_list`/`relation_ids` re-tag it only
in the sense of the total embedding's `RunError.err` wrapper, carrying
the same value); `log` alone discards the error and returns unit, the
same result as on success. -/
theorem claim_C8_propagation :
    ∀ (e : JujuError),
      action_get_run (.error e) = .error e ∧
      reboot_run (.error e) = .error e ∧
      config_get_all_run (.error e) = .error e ∧
      relation_list_run (.error e) = .error (RunError.err e) ∧
      relation_ids_run (.error e) = .error (RunError.err e) ∧
      is_leader_run (.error e) = .error e ∧
      log_run (.error e) = log_run (.ok ⟨true, [], []⟩) :=
  fun _ => ⟨rfl, rfl, rfl, rfl, rfl, rfl, rfl⟩

/-- A well-formed relation line for `r`: it splits on the delimiter into
exactly the name and one further segment, and that segment parses as the
id. -/
def relLineOk (delim : Char) (line : List Char) (r : Relation) : Prop :=
  ∃ seg, splitOnChar delim line = [r.name, seg] ∧ parseUsize seg = .ok r.id

lemma parse_relation_ok (delim : Char) :
    ∀ (lines : List (List Char)) (rels : List Relation) (acc : List Relation),
      List.Forall₂ (relLineOk delim) lines rels →
      parse_relation_lines delim lines acc = .ok (acc ++ rels) := by
  intro lines
  induction lines with
  | nil =>
    intro rels acc hf
    cases hf
    simp [parse_relation_lines]
  | cons a rest ih =>
    intro rels acc hf
    cases hf with
    | cons hr hrest =>
      rename_i b l2
      obtain ⟨seg, hsplit, hparse⟩ := hr
      obtain ⟨bn, bi⟩ := b
      simp only [parse_relation_lines, hsplit, hparse, List.get?, List.headD]
      have hfin := ih l2 (acc ++ [(⟨bn, bi⟩ : Relation)]) hrest
      rw [hfin]
      simp

lemma parse_relation_numfail (delim : Char) :
    ∀ (lines : List (List Char)) (acc : List Relation),
      (∀ l ∈ lines, ∃ seg, (splitOnChar delim l).get? 1 = some seg) →
      (∃ l ∈ lines, ∃ seg e, (splitOnChar delim l).get? 1 = some seg ∧
        parseUsize seg = .error e) →
      ∃ m, parse_relation_lines delim lines acc =
        .error (RunError.err (JujuError.ParseIntError m)) := by
  intro lines
  induction lines with
  | nil =>
    intro acc _ hex
    obtain ⟨l, hl, _⟩ := hex
    exact absurd hl (List.not_mem_nil l)
  | cons a rest ih =>
    intro acc hall hex
    obtain ⟨seg, hseg⟩ := hall a (List.mem_cons_self a rest)
    cases hp : parseUsize seg with
    | error e =>
      refine ⟨e, ?_⟩
      simp only [parse_relation_lines, hseg, hp]
    | ok n =>
      obtain ⟨l, hl, seg', e', hseg', hparse'⟩ := hex
      rcases List.mem_cons.mp hl with rfl | hlrest
      · rw [hseg] at hseg'
        injection hseg' with hss
        subst hss
        rw [hp] at hparse'
        exact absurd hparse' (by simp)
      · have hall' : ∀ l' ∈ rest, ∃ sg, (splitOnChar delim l').get? 1 = some sg :=
          fun l' hm => hall l' (List.mem_cons_of_mem a hm)
        have hex' : ∃ l' ∈ rest, ∃ sg e2, (splitOnChar delim l').get? 1 = some sg ∧
            parseUsize sg = .error e2 := ⟨l, hlrest, seg', e', hseg', hparse'⟩
        obtain ⟨m, hm⟩ :=
          ih (acc ++ [⟨(splitOnChar delim a).headD [], n⟩]) hall' hex'
        refine ⟨m, ?_⟩
        simp only [parse_relation_lines, hseg, hp]
        exact hm

lemma splitOnChar_no_delim (delim : Char) :
    ∀ (l : List Char), delim ∉ l → splitOnChar delim l = [l] := by
  intro l h
  induction l with
  | nil => rfl
  | cons c t ih =>
    have hc : ¬ c = delim := by
      intro hcd
      subst hcd
      exact h (List.mem_cons_self c t)
    have ht : delim ∉ t := fun hm => h (List.mem_cons_of_mem c hm)
    simp only [splitOnChar, if_neg hc, ih ht]

lemma parse_relation_panic (delim : Char) :
    ∀ (pre : List (List Char)) (line : List Char) (post : List (List Char))
      (acc : List Relation),
      (∀ l ∈ pre, ∃ seg n, (splitOnChar delim l).get? 1 = some seg ∧
        parseUsize seg = .ok n) →
      delim ∉ line →
      parse_relation_lines delim (pre ++ line :: post) acc =
        .error (RunError.panic (oobMsg 1 1)) := by
  intro pre
  induction pre with
  | nil =>
    intro line post acc _ hnd
    have hs := splitOnChar_no_delim delim line hnd
    simp only [List.nil_append, parse_relation_lines, hs, List.get?,
      List.length_cons, List.length_nil]
  | cons a t ih =>
    intro line post acc hpre hnd
    obtain ⟨seg, n, hseg, hparse⟩ := hpre a (List.mem_cons_self a t)
    have hpre' : ∀ l ∈ t, ∃ sg m, (splitOnChar delim l).get? 1 = some sg ∧
        parseUsize sg = .ok m :=
      fun l hm => hpre l (List.mem_cons_of_mem a hm)
    simp only [List.cons_append, parse_relation_lines, hseg, hparse]
    exact ih line post _ hpre' hnd

/-- Counterexample to claim C5 as stated: the decoded relation-list text
`"abc\na/x"` contains the line `"a/x"` whose id segment `"x"` is not
parseable as a non-negative integer, yet the entire parse does not fail
with the NumericParseFailure tag: the earlier line `"abc"` has no second
`'/'`-split segment, so the unconditional `v[1]` goes out of bounds and
the loop aborts in the panic branch before the bad numeric is ever
reached. -/
theorem claim_C5_counterexample :
    (("a/x".data ∈ rustLines "abc\na/x".data) ∧
        (splitOnChar '/' "a/x".data).get? 1 = some "x".data ∧
        parseUsize "x".data =
          Except.error "invalid digit found in string".data) ∧
      relation_list_parse "abc\na/x".data =
        Except.error (RunError.panic (oobMsg 1 1)) :=
  ⟨⟨by decide, rfl, rfl⟩, rfl⟩

/-- Claim C5 as amended: (i) on decoded relation-list text whose lines
are all `name/id` with a parseable `usize` id, `relation_list` returns
the `Relation{name, id}` records in input line order; (ii) likewise for
`relation_ids` with `name:id`; (iii)/(iv) for any input in which every
line has an id segment (a second split segment) and some line's id
segment fails to parse as a non-negative integer, the whole parse aborts
with the `ParseIntError` (NumericParseFailure) tag and no partial list.
(The every-line-has-an-id-segment condition is forced by the
counterexample: a line without the delimiter panics instead.) -/
theorem claim_C5_relation_parsers :
    (∀ (s : List Char) (rels : List Relation),
        List.Forall₂ (relLineOk '/') (rustLines s) rels →
        relation_list_parse s = .ok rels) ∧
    (∀ (s : List Char) (rels : List Relation),
        List.Forall₂ (relLineOk ':') (rustLines s) rels →
        relation_ids_parse s = .ok rels) ∧
    (∀ (s : List Char),
        (∀ l ∈ rustLines s, ∃ seg, (splitOnChar '/' l).get? 1 = some seg) →
        (∃ l ∈ rustLines s, ∃ seg e, (splitOnChar '/' l).get? 1 = some seg ∧
          parseUsize seg = .error e) →
        ∃ m, relation_list_parse s =
          .error (RunError.err (JujuError.ParseIntError m))) ∧
    (∀ (s : List Char),
        (∀ l ∈ rustLines s, ∃ seg, (splitOnChar ':' l).get? 1 = some seg) →
        (∃ l ∈ rustLines s, ∃ seg e, (splitOnChar ':' l).get? 1 = some seg ∧
          parseUsize seg = .error e) →
        ∃ m, relation_ids_parse s =
          .error (RunError.err (JujuError.ParseIntError m))) := by
  refine ⟨fun s rels hf => ?_, fun s rels hf => ?_,
    fun s hall hex => ?_, fun s hall hex => ?_⟩
  · simpa [relation_list_parse] using
      parse_relation_ok '/' (rustLines s) rels [] hf
  · simpa [relation_ids_parse] using
      parse_relation_ok ':' (rustLines s) rels [] hf
  · simpa [relation_list_parse] using
      parse_relation_numfail '/' (rustLines s) [] hall hex
  · simpa [relation_ids_parse] using
      parse_relation_numfail ':' (rustLines s) [] hall hex

/-- Witness for C5: the spec's examples.  `"a/1\nb/2\n"` parses to
`[{a,1},{b,2}]` in order (and `"a:1\nb:2\n"` likewise for
`relation_ids`); `"a/x"` (non-numeric id) makes the whole parse fail
with the numeric-parse tag. -/
theorem claim_C5_witness :
    relation_list_parse "a/1\nb/2\n".data =
        Except.ok [⟨"a".data, 1⟩, ⟨"b".data, 2⟩] ∧
      relation_ids_parse "a:1\nb:2\n".data =
        Except.ok [⟨"a".data, 1⟩, ⟨"b".data, 2⟩] ∧
      ∃ m, relation_list_parse "a/x".data =
        Except.error (RunError.err (JujuError.ParseIntError m)) := by
  refine ⟨?_, ?_, ?_⟩
  · refine claim_C5_relation_parsers.1 _ _ ?_
    have h : rustLines "a/1\nb/2\n".data = ["a/1".data, "b/2".data] := rfl
    rw [h]
    exact .cons ⟨"1".data, rfl, rfl⟩ (.cons ⟨"2".data, rfl, rfl⟩ .nil)
  · refine claim_C5_relation_parsers.2.1 _ _ ?_
    have h : rustLines "a:1\nb:2\n".data = ["a:1".data, "b:2".data] := rfl
    rw [h]
    exact .cons ⟨"1".data, rfl, rfl⟩ (.cons ⟨"2".data, rfl, rfl⟩ .nil)
  · refine claim_C5_relation_parsers.2.2.1 _ ?_ ?_
    · have h : rustLines "a/x".data = ["a/x".data] := rfl
      rw [h]
      intro l hl
      rcases List.mem_cons.mp hl with rfl | hl2
      · exact ⟨"x".data, rfl⟩
      · exact absurd hl2 (List.not_mem_nil l)
    · have h : rustLines "a/x".data = ["a/x".data] := rfl
      rw [h]
      exact ⟨"a/x".data, List.mem_cons_self _ _,
        "x".data, "invalid digit found in string".data, rfl, rfl⟩

/-- Counterexample to claim C9 as stated: the text `"a/x\nabc"` contains
the non-empty line `"abc"` without a `'/'`, yet `relation_list` does
return one of the three typed errors for it — the earlier line `"a/x"`
aborts the loop with the numeric-parse failure before the
out-of-bounds index on `"abc"` is ever reached. -/
theorem claim_C9_counterexample :
    ("abc".data ∈ rustLines "a/x\nabc".data ∧ "abc".data ≠ ([] : List Char) ∧
        ¬ '/' ∈ "abc".data) ∧
      relation_list_parse "a/x\nabc".data =
        Except.error (RunError.err
          (JujuError.ParseIntError "invalid digit found in string".data)) :=
  ⟨by decide, rfl⟩

/-- Claim C9 as amended: for stdout text in which a non-empty line
without the corresponding delimiter appears after only well-formed lines
(each earlier line has a second split segment that parses as `usize`),
the unconditional `v[1]` of `relation_list` / `relation_ids` is out of
bounds on that line: the total embedding takes its panic branch, which
is none of the three typed `JujuError` results. -/
theorem claim_C9_panic_reachable :
    (∀ (s : List Char) (pre : List (List Char)) (line : List Char)
        (post : List (List Char)),
        rustLines s = pre ++ line :: post →
        (∀ l ∈ pre, ∃ seg n, (splitOnChar '/' l).get? 1 = some seg ∧
          parseUsize seg = .ok n) →
        line ≠ [] → '/' ∉ line →
        relation_list_parse s = .error (RunError.panic (oobMsg 1 1))) ∧
    (∀ (s : List Char) (pre : List (List Char)) (line : List Char)
        (post : List (List Char)),
        rustLines s = pre ++ line :: post →
        (∀ l ∈ pre, ∃ seg n, (splitOnChar ':' l).get? 1 = some seg ∧
          parseUsize seg = .ok n) →
        line ≠ [] → ':' ∉ line →
        relation_ids_parse s = .error (RunError.panic (oobMsg 1 1))) := by
  constructor
  · intro s pre line post hlines hpre _ hnd
    unfold relation_list_parse
    rw [hlines]
    exact parse_relation_panic '/' pre line post [] hpre hnd
  · intro s pre line post hlines hpre _ hnd
    unfold relation_ids_parse
    rw [hlines]
    exact parse_relation_panic ':' pre line post [] hpre hnd

/-- Witness for C9 (amended): for stdout text `"abc"` (and `"abc"` for
the `relation_ids` side) the first line already lacks the delimiter, and
both parsers return the out-of-bounds panic branch. -/
theorem claim_C9_witness :
    relation_list_parse "abc".data =
        Except.error (RunError.panic (oobMsg 1 1)) ∧
      relation_ids_parse "abc".data =
        Except.error (RunError.panic (oobMsg 1 1)) :=
  ⟨claim_C9_panic_reachable.1 "abc".data [] "abc".data [] rfl
      (fun l hl => absurd hl (List.not_mem_nil l)) (by decide) (by decide),
    claim_C9_panic_reachable.2 "abc".data [] "abc".data [] rfl
      (fun l hl => absurd hl (List.not_mem_nil l)) (by decide) (by decide)⟩

lemma mapInsert_fresh (acc : ConfigMap) (k v : List Char) :
    (∀ p ∈ acc, p.1 ≠ k) → mapInsert acc k v = acc ++ [(k, v)] := by
  intro h
  have hany : acc.any (fun p => p.1 == k) = false := by
    rw [List.any_eq_false]
    intro p hp
    simpa using h p hp
  simp [mapInsert, hany]

lemma config_parse_go_ok :
    ∀ (lines : List (List Char)) (pairs : ConfigMap) (acc : ConfigMap),
      List.Forall₂ (fun line p => configSplitLine line = [p.1, p.2])
        lines pairs →
      ((acc ++ pairs).map Prod.fst).Nodup →
      config_parse_go lines acc = .ok (acc ++ pairs) := by
  intro lines
  induction lines with
  | nil =>
    intro pairs acc hf _
    cases hf
    simp [config_parse_go]
  | cons line rest ih =>
    intro pairs acc hf hnd
    cases hf with
    | cons hr hrest =>
      rename_i p l2
      have hk : ∀ q ∈ acc, q.1 ≠ p.1 := by
        intro q hq hqk
        have hmap : ((acc ++ p :: l2).map Prod.fst) =
            acc.map Prod.fst ++ p.1 :: l2.map Prod.fst := by simp
        rw [hmap] at hnd
        have hdisj := (List.nodup_append.mp hnd).2.2
        exact hdisj (List.mem_map.mpr ⟨q, hq, hqk⟩) (List.mem_cons_self _ _)
      have hnd' : (((acc ++ [(p.1, p.2)]) ++ l2).map Prod.fst).Nodup := by
        have he : (acc ++ [(p.1, p.2)]) ++ l2 = acc ++ p :: l2 := by simp
        rw [he]
        exact hnd
      have hgneg : ¬ ((rustNotUsize 2 == 2) = true) := by decide
      unfold config_parse_go
      rw [hr]
      show (if (rustNotUsize ([p.1, p.2] : List (List Char)).length == 2) = true
          then config_parse_go rest acc
          else config_parse_go rest (mapInsert acc p.1 p.2)) =
        Except.ok (acc ++ p :: l2)
      rw [show (([p.1, p.2] : List (List Char)).length) = 2 from rfl]
      rw [if_neg hgneg]
      rw [mapInsert_fresh acc p.1 p.2 hk]
      rw [ih l2 (acc ++ [(p.1, p.2)]) hrest hnd']
      simp

/-- Counterexample to claim C7 as stated: a `key: value` line written
with one space after the colon does retain that leading space in the
stored value — `config_get_all` performs no trimming at the split
boundary (`key.to_string()` / `value.to_string()` copy the split
segments verbatim). -/
theorem claim_C7_counterexample :
    config_parse "cluster_type: Replicate".data =
        .ok [("cluster_type".data, " Replicate".data)] ∧
      (" Replicate".data : List Char) ≠ "Replicate".data :=
  ⟨rfl, by decide⟩

/-- Claim C7 as amended: for every config-dump text of N lines each of
which splits (after discarding empty segments) into exactly a key and a
value segment, with the N keys distinct, `config_get_all` yields a map
of exactly N entries holding those exact split segments — whitespace is
preserved, not trimmed, so a value written with a space after the colon
keeps that leading space. -/
theorem claim_C7_config_exact_entries :
    ∀ (s : List Char) (pairs : ConfigMap),
      List.Forall₂ (fun line p => configSplitLine line = [p.1, p.2])
        (rustLines s) pairs →
      (pairs.map Prod.fst).Nodup →
      config_parse s = .ok pairs ∧ pairs.length = (rustLines s).length := by
  intro s pairs hf hnd
  constructor
  · have h := config_parse_go_ok (rustLines s) pairs [] hf (by simpa using hnd)
    simpa [config_parse] using h
  · exact (List.Forall₂.length_eq hf).symm

/-- Witness for C7 (amended) at the source's own documented example
output: two distinct keys yield exactly two entries, whose values keep
the space that followed each colon. -/
theorem claim_C7_witness :
    config_parse
        "brick_paths: /mnt/brick1 /mnt/brick2\ncluster_type: Replicate\n".data =
        Except.ok [("brick_paths".data, " /mnt/brick1 /mnt/brick2".data),
          ("cluster_type".data, " Replicate".data)] ∧
      ([("brick_paths".data, " /mnt/brick1 /mnt/brick2".data),
          ("cluster_type".data, " Replicate".data)] : ConfigMap).length =
        (rustLines
          "brick_paths: /mnt/brick1 /mnt/brick2\ncluster_type: Replicate\n".data).length := by
  refine claim_C7_config_exact_entries _ _ ?_ (by decide)
  have h : rustLines
      "brick_paths: /mnt/brick1 /mnt/brick2\ncluster_type: Replicate\n".data =
      ["brick_paths: /mnt/brick1 /mnt/brick2".data,
        "cluster_type: Replicate".data] := rfl
  rw [h]
  exact .cons rfl (.cons rfl .nil)

/-- Claim C6: `process_output` returns success (`Ok(0)`) whenever the
exit status is success, regardless of stdout/stderr content; on a
non-success status it fails with the process-failure tag carrying the
decoded stderr text; and when stderr is not valid UTF-8 the decode
failure is returned instead (it takes precedence, and is always the
`FromUtf8Error` tag). -/
theorem claim_C6_process_output :
    ∀ (output : Output),
      (output.success = true → process_output output = .ok 0) ∧
      (output.success = false →
        (∀ s, from_utf8 output.stderr = .ok s →
          process_output output = .error (JujuError.IoError s)) ∧
        (∀ e, from_utf8 output.stderr = .error e →
          process_output output = .error e ∧
            ∃ m, e = JujuError.FromUtf8Error m)) := by
  intro output
  refine ⟨fun h => by simp [process_output, h], fun h => ⟨?_, ?_⟩⟩
  · intro s hs
    simp [process_output, h, hs]
  · intro e he
    refine ⟨by simp [process_output, h, he], ?_⟩
    unfold from_utf8 at he
    cases hu : utf8Decode output.stderr with
    | some cs => rw [hu] at he; exact absurd he (by simp)
    | none =>
      rw [hu] at he
      injection he with hmsg
      exact ⟨"invalid utf-8".data, hmsg.symm⟩

/-- Witness for C6: exit success with junk on stderr still yields
`Ok(0)`; a failing exit with stderr bytes decoding to `"boom"` yields
the process-failure tag carrying `"boom"`; a failing exit with the
invalid byte `0xFF` on stderr yields the decode-failure tag instead. -/
theorem claim_C6_witness :
    process_output ⟨true, [], [255]⟩ = Except.ok 0 ∧
      process_output ⟨false, [], "boom".data.map Char.toNat⟩ =
        Except.error (JujuError.IoError "boom".data) ∧
      process_output ⟨false, [], [255]⟩ =
        Except.error (JujuError.FromUtf8Error "invalid utf-8".data) :=
  ⟨(claim_C6_process_output ⟨true, [], [255]⟩).1 rfl,
    ((claim_C6_process_output ⟨false, [], "boom".data.map Char.toNat⟩).2
      rfl).1 "boom".data rfl,
    (((claim_C6_process_output ⟨false, [], [255]⟩).2 rfl).2
      (JujuError.FromUtf8Error "invalid utf-8".data) rfl).1⟩

/-- Claim C10: `Context::new_from_env` indexes `parts[1]` of the
`':'`-split of `JUJU_RELATION_ID` unconditionally and `unwrap`s the
`usize` parse: for every environment in which that value — empty when
the variable is unset — has no second split segment, or has one that
does not parse, the constructor aborts (the embedding's `.error` branch
models the panic); the Rust signature returns a bare `Context`, so no
error value can be returned. -/
theorem claim_C10_new_from_env_panics :
    ∀ (env : String → Option (List Char)),
      (∀ seg, (splitOnChar ':' ((env "JUJU_RELATION_ID").getD [])).get? 1 =
          some seg → ∃ e, parseUsize seg = .error e) →
      ∃ m, new_from_env env = .error m := by
  intro env h
  unfold new_from_env
  split
  · exact ⟨_, rfl⟩
  · rename_i seg hp
    obtain ⟨e, he⟩ := h seg hp
    rw [he]
    exact ⟨_, rfl⟩

/-- Witness for C10: with `JUJU_RELATION_ID` unset the split of the
empty default has no second segment and the constructor aborts; with
`JUJU_RELATION_ID = "server:x"` the second segment fails the parse and
the `unwrap` aborts. -/
theorem claim_C10_witness :
    (∃ m, new_from_env (fun _ => none) = Except.error m) ∧
      ∃ m, new_from_env (fun _ => some "server:x".data) = Except.error m :=
  ⟨claim_C10_new_from_env_panics (fun _ => none)
      (fun seg h => by
        have h2 : (none : Option (List Char)) = some seg := h
        exact Option.noConfusion h2),
    claim_C10_new_from_env_panics (fun _ => some "server:x".data)
      (fun seg h => by
        have h2 : (some "x".data : Option (List Char)) = some seg := h
        injection h2 with h3
        rw [← h3]
        exact ⟨"invalid digit found in string".data, rfl⟩)⟩
